import Mathlib

set_option maxRecDepth 40000

/-!
Verification of the `TokenBalanceService` frontend module: account-identifier
derivation (SHA-224 + CRC-32 + hex), exact balance formatting, the token
metadata cache, the balance query facade, and network configuration.

The embedding translates the TypeScript source into Lean: byte sequences
become `List Nat` (each element a byte value), JavaScript `bigint` becomes
`Nat` (all values in scope are non-negative), 32-bit integer operations are
modelled on `Nat` with explicit truncation where the source relies on wrap
semantics, and `async` methods with a single `await` suspension point are
modelled as explicit check/resume phases over an association-list cache.
-/

namespace TokenService

/-! ## Hex encoding (`toHex`)

Source: `toHex(buffer) = Array.from(buffer).map(x => ("00" + x.toString(16)).slice(-2)).join("")`.
For any natural number `x`, `("00" + x.toString(16)).slice(-2)` is the final
two hexadecimal digits of `x` (zero-padded), i.e. digits `x / 16 % 16` and
`x % 16`. -/

/-- Lowercase hexadecimal digit characters, as produced by JavaScript
`Number.prototype.toString(16)`. -/
def hexDigits : List Char := ("0123456789abcdef").data

/-- The lowercase hex digit for a value; out-of-range indices cannot arise at
call sites (all indices are `_ % 16`). -/
def hexDigitChar (n : Nat) : Char := hexDigits.getD n '0'

/-- The two hex characters `("00" + x.toString(16)).slice(-2)` produces for a
byte value. -/
def hexByteChars (b : Nat) : List Char :=
  [hexDigitChar (b / 16 % 16), hexDigitChar (b % 16)]

/-- Characters of the hex encoding of a byte sequence. -/
def toHexChars : List Nat → List Char
  | [] => []
  | b :: bs => hexByteChars b ++ toHexChars bs

/-- Source `toHex`: the hex string for a byte sequence. -/
def toHex (bs : List Nat) : String := String.mk (toHexChars bs)

/-! ## CRC-32 (`calculateCRC32`)

Source loop, on 32-bit values:
`crc = 0xffffffff; for byte: crc ^= byte; 8 times: crc = (crc >>> 1) ^ (0xedb88320 & -(crc & 1));`
then `crc = ~crc >>> 0` and big-endian serialization into 4 bytes.
`-(crc & 1)` is `0xFFFFFFFF` (as a 32-bit value) when the low bit is set and
`0` otherwise, and `x >>> 1` is `x / 2` on the unsigned view. -/

/-- One shift-and-conditionally-xor step of the source's inner loop:
`(crc >>> 1) ^ (0xedb88320 & -(crc & 1))`. -/
def crcStep (c : Nat) : Nat :=
  (c / 2) ^^^ (0xedb88320 &&& (if c % 2 = 1 then 0xffffffff else 0))

/-- Processing one input byte: xor it into the register and run eight
`crcStep` iterations. -/
def crcByteUpdate (c b : Nat) : Nat := crcStep^[8] (c ^^^ b)

/-- The final 32-bit register value: initial register `0xFFFFFFFF`, a
`crcByteUpdate` per byte, final complement (`~crc >>> 0`). -/
def crc32Register (bs : List Nat) : Nat :=
  0xffffffff ^^^ List.foldl crcByteUpdate 0xffffffff bs

/-- Source `calculateCRC32`: the 4-byte big-endian serialization of the register
(`buffer[0] = (crc >> 24) & 0xff`, …). -/
def calculateCRC32 (bs : List Nat) : List Nat :=
  let crc := crc32Register bs
  [crc / 2 ^ 24 % 256, crc / 2 ^ 16 % 256, crc / 2 ^ 8 % 256, crc % 256]

/-! Reference form of the checksum, modelled from the spec: the standard
reflected CRC-32 processes each input byte bit by bit, least significant bit
first; at each bit the register is xored with the bit, then shifted right one
position, xoring in the polynomial `0xEDB88320` when the bit shifted out was
set; initial register `0xFFFFFFFF`, final complement. -/

/-- Modelled from the spec: one bit of the standard reflected CRC-32. -/
def crcSpecBitStep (c bit : Nat) : Nat :=
  if (c ^^^ bit) % 2 = 1 then ((c ^^^ bit) / 2) ^^^ 0xedb88320 else (c ^^^ bit) / 2

/-- The `k` low bits of a natural number, least significant first. -/
def bitsLSB : Nat → Nat → List Nat
  | 0, _ => []
  | k + 1, b => b % 2 :: bitsLSB k (b / 2)

/-- Modelled from the spec: the standard reflected CRC-32 register (reflected
input: bits of each byte processed least significant first), with initial
register `0xFFFFFFFF` and final complement. -/
def crc32ReflectedSpec (bs : List Nat) : Nat :=
  0xffffffff ^^^
    List.foldl (fun c b => List.foldl crcSpecBitStep c (bitsLSB 8 b)) 0xffffffff bs

/-- Big-endian 4-byte serialization of a 32-bit value, most significant byte
first. -/
def bigEndian4 (w : Nat) : List Nat :=
  [w / 2 ^ 24 % 256, w / 2 ^ 16 % 256, w / 2 ^ 8 % 256, w % 256]

/-! ## Balance formatting (`formatBalance`)

Source:
`const divisor = BigInt(10 ** decimals); const whole = balance / divisor;
const fraction = balance % divisor; if (fraction === 0n) return whole.toString();
const fractionStr = fraction.toString().padStart(decimals, "0").replace(/0+$/, "");
return whole + "." + fractionStr;`

`10 ** decimals` is JavaScript `Number` (binary64 floating-point)
exponentiation, not `bigint` exponentiation: the divisor is the `BigInt`
image of a float64 value, which differs from `10 ^ decimals` once
`10 ^ decimals` is no longer exactly representable in 53 bits of
significand (first at `decimals = 23`). We model the float64 value of an
integer by round-to-nearest, ties-to-even at 53 significant bits (the
correctly rounded result; ECMAScript allows an implementation-approximated
exponentiation, but every implementation returns some float64, and no
float64 equals `10 ^ 23`). -/

/-- Binary length helper, structurally recursive on fuel. -/
def bitlenAux : Nat → Nat → Nat
  | 0, _ => 0
  | fuel + 1, n => if n = 0 then 0 else bitlenAux fuel (n / 2) + 1

/-- Number of binary digits of `n` (`0` for `n = 0`). -/
def bitlen (n : Nat) : Nat := bitlenAux n n

/-- The float64 (binary64) value nearest to the integer `n` (ties to even),
as an integer; exact below `2 ^ 53`. Valid for `n < 2 ^ 1024` (no overflow),
which covers every `10 ^ d` with `d ≤ 255`. -/
def toFloat64 (n : Nat) : Nat :=
  if n < 2 ^ 53 then n
  else
    let e := bitlen n - 53
    let q := n / 2 ^ e
    let r := n % 2 ^ e
    let q' := if 2 * r > 2 ^ e ∨ (2 * r = 2 ^ e ∧ q % 2 = 1) then q + 1 else q
    q' * 2 ^ e

/-- The value `BigInt(10 ** decimals)` computed by the source: the float64
rounding of `10 ^ decimals`, converted exactly to `bigint`. -/
def jsPow10 (decimals : Nat) : Nat := toFloat64 (10 ^ decimals)

/-- JavaScript `String.prototype.padStart(n, c)`: left-pad with `c` up to
length `n` (no change when already long enough). -/
def jsPadStart (s : String) (n : Nat) (c : Char) : String :=
  String.mk (List.replicate (n - s.length) c) ++ s

/-- JavaScript `.replace(/0+$/, "")`: remove the trailing run of `'0'`
characters. -/
def stripTrailingZeros (s : String) : String :=
  String.mk ((s.data.reverse.dropWhile (fun ch => ch = '0')).reverse)

/-- Source `formatBalance`, as the source computes it (divisor `BigInt(10 ** decimals)`). -/
def formatBalance (balance : Nat) (decimals : Nat) : String :=
  let divisor := jsPow10 decimals
  let whole := balance / divisor
  let fraction := balance % divisor
  if fraction = 0 then Nat.repr whole
  else
    let fractionStr := stripTrailingZeros (jsPadStart (Nat.repr fraction) decimals '0')
    Nat.repr whole ++ "." ++ fractionStr

/-- Modelled from the spec: the formatter with an exact power-of-ten divisor
(`divide balance by 10^decimals (integer division)`), everything else as in
the source. -/
def formatBalanceSpec (balance : Nat) (decimals : Nat) : String :=
  let divisor := 10 ^ decimals
  let whole := balance / divisor
  let fraction := balance % divisor
  if fraction = 0 then Nat.repr whole
  else
    let fractionStr := stripTrailingZeros (jsPadStart (Nat.repr fraction) decimals '0')
    Nat.repr whole ++ "." ++ fractionStr

/-! ## SHA-224

The source delegates to `crypto.subtle.digest("SHA-224", data)`. SHA-224 is
FIPS 180-4 SHA-256 with distinct initial hash values and the digest truncated
to the first seven 32-bit words (28 bytes). All word arithmetic is modulo
`2 ^ 32`. -/

/-- The SHA-256 family round constants. -/
def shaK : List Nat :=
  [0x428a2f98, 0x71374491, 0xb5c0fbcf, 0xe9b5dba5, 0x3956c25b, 0x59f111f1] ++
  [0x923f82a4, 0xab1c5ed5, 0xd807aa98, 0x12835b01, 0x243185be, 0x550c7dc3] ++
  [0x72be5d74, 0x80deb1fe, 0x9bdc06a7, 0xc19bf174, 0xe49b69c1, 0xefbe4786] ++
  [0x0fc19dc6, 0x240ca1cc, 0x2de92c6f, 0x4a7484aa, 0x5cb0a9dc, 0x76f988da] ++
  [0x983e5152, 0xa831c66d, 0xb00327c8, 0xbf597fc7, 0xc6e00bf3, 0xd5a79147] ++
  [0x06ca6351, 0x14292967, 0x27b70a85, 0x2e1b2138, 0x4d2c6dfc, 0x53380d13] ++
  [0x650a7354, 0x766a0abb, 0x81c2c92e, 0x92722c85, 0xa2bfe8a1, 0xa81a664b] ++
  [0xc24b8b70, 0xc76c51a3, 0xd192e819, 0xd6990624, 0xf40e3585, 0x106aa070] ++
  [0x19a4c116, 0x1e376c08, 0x2748774c, 0x34b0bcb5, 0x391c0cb3, 0x4ed8aa4a] ++
  [0x5b9cca4f, 0x682e6ff3, 0x748f82ee, 0x78a5636f, 0x84c87814, 0x8cc70208] ++
  [0x90befffa, 0xa4506ceb, 0xbef9a3f7, 0xc67178f2]

/-- Right rotation of a 32-bit word by `n` (valid for `x < 2 ^ 32`, `n ≤ 32`). -/
def rotr (n x : Nat) : Nat := x / 2 ^ n + x % 2 ^ n * 2 ^ (32 - n)

/-- SHA-2 `Ch(x,y,z) = (x ∧ y) ⊕ (¬x ∧ z)` on 32-bit words. -/
def shaCh (x y z : Nat) : Nat := (x &&& y) ^^^ ((x ^^^ 0xffffffff) &&& z)

/-- SHA-2 `Maj(x,y,z)`. -/
def shaMaj (x y z : Nat) : Nat := (x &&& y) ^^^ (x &&& z) ^^^ (y &&& z)

/-- SHA-2 `Σ₀`. -/
def bigSigma0 (x : Nat) : Nat := rotr 2 x ^^^ rotr 13 x ^^^ rotr 22 x

/-- SHA-2 `Σ₁`. -/
def bigSigma1 (x : Nat) : Nat := rotr 6 x ^^^ rotr 11 x ^^^ rotr 25 x

/-- SHA-2 `σ₀`. -/
def smallSigma0 (x : Nat) : Nat := rotr 7 x ^^^ rotr 18 x ^^^ x / 2 ^ 3

/-- SHA-2 `σ₁`. -/
def smallSigma1 (x : Nat) : Nat := rotr 17 x ^^^ rotr 19 x ^^^ x / 2 ^ 10

/-- The eight 32-bit working variables of the SHA-2 compression function. -/
structure SHAState where
  a : Nat
  b : Nat
  c : Nat
  d : Nat
  e : Nat
  f : Nat
  g : Nat
  h : Nat

/-- SHA-224 initial hash values (FIPS 180-4 §5.3.2). -/
def iv224 : SHAState :=
  ⟨0xc1059ed8, 0x367cd507, 0x3070dd17, 0xf70e5939, 0xffc00b31, 0x68581511, 0x64f98fa7, 0xbefa4fa4⟩

/-- One round of the SHA-2 compression function. -/
def shaRound (st : SHAState) (k w : Nat) : SHAState :=
  let t1 := (st.h + bigSigma1 st.e + shaCh st.e st.f st.g + k + w) % 2 ^ 32
  let t2 := (bigSigma0 st.a + shaMaj st.a st.b st.c) % 2 ^ 32
  ⟨(t1 + t2) % 2 ^ 32, st.a, st.b, st.c, (st.d + t1) % 2 ^ 32, st.e, st.f, st.g⟩

/-- The next message-schedule word `W[t] = σ₁(W[t−2]) + W[t−7] + σ₀(W[t−15]) + W[t−16]`,
where `t` is the number of words produced so far. -/
def nextScheduleWord (ws : List Nat) : Nat :=
  let t := ws.length
  (smallSigma1 (ws.getD (t - 2) 0) + ws.getD (t - 7) 0 +
    smallSigma0 (ws.getD (t - 15) 0) + ws.getD (t - 16) 0) % 2 ^ 32

/-- Extend the 16-word block to the full 64-word message schedule. -/
def extendSchedule : Nat → List Nat → List Nat
  | 0, ws => ws
  | n + 1, ws => extendSchedule n (ws ++ [nextScheduleWord ws])

/-- Process one 16-word block: 64 rounds, then add the previous hash value. -/
def compressBlock (st0 : SHAState) (block : List Nat) : SHAState :=
  let ws := extendSchedule 48 block
  let st := (shaK.zip ws).foldl (fun st kw => shaRound st kw.1 kw.2) st0
  ⟨(st0.a + st.a) % 2 ^ 32, (st0.b + st.b) % 2 ^ 32, (st0.c + st.c) % 2 ^ 32,
   (st0.d + st.d) % 2 ^ 32, (st0.e + st.e) % 2 ^ 32, (st0.f + st.f) % 2 ^ 32,
   (st0.g + st.g) % 2 ^ 32, (st0.h + st.h) % 2 ^ 32⟩

/-- Big-endian 64-bit encoding of the message bit length. -/
def sha2LenBytes (bits : Nat) : List Nat :=
  [bits / 2 ^ 56 % 256, bits / 2 ^ 48 % 256, bits / 2 ^ 40 % 256, bits / 2 ^ 32 % 256,
   bits / 2 ^ 24 % 256, bits / 2 ^ 16 % 256, bits / 2 ^ 8 % 256, bits % 256]

/-- SHA-2 padding: `0x80`, then zeros up to 56 mod 64, then the bit length. -/
def padMessage (msg : List Nat) : List Nat :=
  msg ++ 0x80 ::
    (List.replicate ((64 - (msg.length + 9) % 64) % 64) 0 ++ sha2LenBytes (8 * msg.length))

/-- Big-endian grouping of bytes into 32-bit words. -/
def bytesToWords : List Nat → List Nat
  | b0 :: b1 :: b2 :: b3 :: rest =>
    (b0 * 2 ^ 24 + b1 * 2 ^ 16 + b2 * 2 ^ 8 + b3) :: bytesToWords rest
  | _ => []

/-- Split a word list into 16-word blocks (fuel-driven structural recursion). -/
def chunks16 : Nat → List Nat → List (List Nat)
  | 0, _ => []
  | _, [] => []
  | fuel + 1, ws => ws.take 16 :: chunks16 fuel (ws.drop 16)

/-- Big-endian 4-byte serialization of one hash word. -/
def serializeWord (w : Nat) : List Nat :=
  [w / 2 ^ 24 % 256, w / 2 ^ 16 % 256, w / 2 ^ 8 % 256, w % 256]

/-- SHA-224 digest of a byte sequence: pad, compress each block starting from
`iv224`, output the first seven words (28 bytes). -/
def sha224 (msg : List Nat) : List Nat :=
  let ws := bytesToWords (padMessage msg)
  let st := (chunks16 ws.length ws).foldl compressBlock iv224
  serializeWord st.a ++ serializeWord st.b ++ serializeWord st.c ++ serializeWord st.d ++
    serializeWord st.e ++ serializeWord st.f ++ serializeWord st.g

/-! ## Account identifier derivation (`generateAccountId`)

Source: `padding = [0x0a, ...TextEncoder().encode("account-id")]`;
`data = padding ++ principal.toUint8Array() ++ (subaccount ?? new Uint8Array(32))`;
`hash = SHA-224(data)`; `crc32 = calculateCRC32(hash)`;
`result = crc32 ++ hash`; hex-encode. The `try`/`catch` only logs and
rethrows, so it has no semantic effect here. A `Principal` enters this
function only through its canonical byte encoding `toUint8Array()`, so the
embedding takes the holder as that byte list directly. -/

/-- The 11-byte domain separator: a `0x0A` byte followed by the ASCII bytes
of the text `account-id`. -/
def accountDomainSep : List Nat := 0x0a :: ("account-id".data.map Char.toNat)

/-- Source `generateAccountId`: checksum-prefixed SHA-224 digest of the account
record, hex-encoded. An absent subaccount defaults to 32 zero bytes. -/
def generateAccountId (principalBytes : List Nat) (subaccount : Option (List Nat)) : String :=
  let sub := subaccount.getD (List.replicate 32 0)
  let data := accountDomainSep ++ principalBytes ++ sub
  let hash := sha224 data
  let crc32 := calculateCRC32 hash
  toHex (crc32 ++ hash)

/-! ## Token metadata cache (`getTokenInfo`)

Source: `if (cache.has(id)) return cache.get(id)!;` then an actor is created
and `await Promise.all([icrc1_name(), icrc1_symbol(), icrc1_decimals()])` is
the single suspension point; on success `cache.set(id, info); return info;`,
and the surrounding `catch` returns `{name: "Unknown Token", symbol: "",
decimals: 8}` without touching the cache. A call is therefore split at the
suspension point into a check phase and a resume phase; the fetch outcome is
an `Except` (the combined metadata triple on success, the thrown error's
message on failure). -/

/-- Token metadata: name, symbol, decimal places. -/
structure TokenInfo where
  name : String
  symbol : String
  decimals : Nat
deriving DecidableEq

/-- The cache, modelling the `Map` as an association list where insertion
conses (first match wins, matching `Map.set`/`Map.get` overwrite semantics). -/
abbrev TokenCache := List (String × TokenInfo)

/-- Source `Map.has`/`Map.get`: first entry with the given key. -/
def cacheLookup : TokenCache → String → Option TokenInfo
  | [], _ => none
  | (k, v) :: rest, id => if k = id then some v else cacheLookup rest id

/-- The fallback returned when the metadata fetch fails. -/
def fallbackTokenInfo : TokenInfo := { name := "Unknown Token", symbol := "", decimals := 8 }

/-- Phase 1 of `getTokenInfo`, up to the suspension point: the cache check.
`some` means the call returns the cached value without fetching; `none` means
the fetch has been started and the call suspends. -/
def getTokenInfoCheck (cache : TokenCache) (id : String) : Option TokenInfo :=
  cacheLookup cache id

/-- Phase 2 of `getTokenInfo`, after the awaited fetch settles: store and
return the metadata on success; on failure return the fallback and leave the
cache untouched. -/
def getTokenInfoResume (cache : TokenCache) (id : String)
    (fetched : Except String TokenInfo) : TokenCache × TokenInfo :=
  match fetched with
  | .ok info => ((id, info) :: cache, info)
  | .error _ => (cache, fallbackTokenInfo)

/-- One complete `getTokenInfo` call with no interleaved call: cache state
after the call, the value returned, and whether the metadata fetch was
invoked. -/
def getTokenInfo (cache : TokenCache) (id : String)
    (fetched : Except String TokenInfo) : TokenCache × TokenInfo × Bool :=
  match getTokenInfoCheck cache id with
  | some info => (cache, info, false)
  | none =>
    let res := getTokenInfoResume cache id fetched
    (res.1, res.2, true)

/-- Two overlapping `getTokenInfo` calls under the cooperative single-threaded
scheduler: caller A runs to its suspension point, caller B starts before A's
fetch resolves and runs to its own suspension point, then A's fetch resolves
and A completes, then B's. (A caller whose check phase hits the cache
completes synchronously without suspending.) Returns the final cache, A's and
B's results, and the total number of fetch invocations. -/
def runOverlappingPair (cache : TokenCache) (idA idB : String)
    (fetchA fetchB : Except String TokenInfo) : TokenCache × TokenInfo × TokenInfo × Nat :=
  match getTokenInfoCheck cache idA with
  | some vA =>
    match getTokenInfoCheck cache idB with
    | some vB => (cache, vA, vB, 0)
    | none =>
      let rB := getTokenInfoResume cache idB fetchB
      (rB.1, vA, rB.2, 1)
  | none =>
    match getTokenInfoCheck cache idB with
    | some vB =>
      let rA := getTokenInfoResume cache idA fetchA
      (rA.1, rA.2, vB, 1)
    | none =>
      let rA := getTokenInfoResume cache idA fetchA
      let rB := getTokenInfoResume rA.1 idB fetchB
      (rB.1, rA.2, rB.2, 2)

/-! ## Balance query facade (`queryTokenBalance`)

Source: builds `account = {owner: principal, subaccount: subaccount ?
[subaccount] : []}` (the ICRC-1 `opt vec nat8` encoding), awaits
`icrc1_balance_of({account})`, and returns `{balance}`; the `catch` converts
any thrown error into `{error: "Failed to query " + id + " balance: " + msg}`.
The ledger call is the injected capability, modelled as a function from the
structured account to an `Except` outcome whose error is the thrown error's
message string. -/

/-- The structured ICRC-1 account the facade sends to the ledger: owner
principal bytes, subaccount as a zero-or-one-element list (`opt vec nat8`). -/
structure IcrcAccount where
  owner : List Nat
  subaccount : List (List Nat)
deriving DecidableEq

/-- Source `{owner: principal, subaccount: subaccount ? [subaccount] : []}`. -/
def mkIcrcAccount (principalBytes : List Nat) (subaccount : Option (List Nat)) : IcrcAccount :=
  { owner := principalBytes,
    subaccount := match subaccount with | some s => [s] | none => [] }

/-- The TypeScript return type `{balance?: bigint; error?: string}`: two
optional fields. -/
structure QueryResult where
  balance : Option Nat
  error : Option String
deriving DecidableEq

/-- Source `queryTokenBalance`: query the ledger for the structured account; wrap
success as `{balance}`; wrap any failure as `{error}` with the token id and
the underlying message embedded. -/
def queryTokenBalance (ledger : IcrcAccount → Except String Nat)
    (tokenCanisterId : String) (principalBytes : List Nat)
    (subaccount : Option (List Nat)) : QueryResult :=
  match ledger (mkIcrcAccount principalBytes subaccount) with
  | .ok b => { balance := some b, error := none }
  | .error msg =>
    { balance := none,
      error := some ("Failed to query " ++ tokenCanisterId ++ " balance: " ++ msg) }

/-- Predicate: `s` occurs as a contiguous substring of `t`. -/
def substrOf (s t : String) : Prop :=
  ∃ pre post : List Char, t.data = pre ++ s.data ++ post

/-! ## Network configuration

The constructor reads `import.meta.env.DFX_NETWORK || "ic"` and only compares
it against `"local"` to decide whether to fetch the local root key (errors
from that fetch are logged and swallowed by `.catch`); it performs no
validation. The private `getNetworkConfig` method re-reads the selector and
throws on anything other than `"local"`/`"ic"`, but no code path in the class
invokes it. -/

/-- JavaScript `env || fallback` for a possibly-undefined environment string
(`undefined` and `""` are falsy). -/
def jsEnvOr (env : Option String) (fallback : String) : String :=
  match env with
  | none => fallback
  | some s => if s = "" then fallback else s

/-- The network selector the service uses: `import.meta.env.DFX_NETWORK || "ic"`. -/
def serviceNetwork (env : Option String) : String := jsEnvOr env ("ic")

/-- Models the `TokenBalanceService` constructor: store the agent, create the
empty cache, read the selector, and fetch the root key only when the selector
is exactly `"local"`. The result records whether the root-key fetch is
attempted; the `Except` layer shows the constructor cannot fail on any
selector. -/
def constructorInit (env : Option String) : Except String Bool :=
  .ok (if serviceNetwork env = "local" then true else false)

/-- Source `getNetworkConfig`: validates the selector, throwing on anything other
than `"local"`/`"ic"`, and returns `{network, isLocal, host}`. Defined in the
source but invoked by no code path in the class. -/
def getNetworkConfig (env : Option String) : Except String (String × Bool × String) :=
  let network := serviceNetwork env
  if network = "local" ∨ network = "ic" then
    .ok (network, if network = "local" then true else false,
      if network = "local" then "http://localhost:4943" else "https://icp-api.io")
  else
    .error ("无效的 DFX_NETWORK 值: " ++ network ++ "，应为 \"local\" 或 \"ic\"")

/-! ## Supporting lemmas -/

/-- Division by two distributes over xor. -/
theorem xor_div_two (x y : Nat) : (x ^^^ y) / 2 = x / 2 ^^^ y / 2 :=
  Nat.eq_of_testBit_eq fun i => by
    simp [Nat.testBit_div_two, Nat.testBit_xor]

/-- Parity of an xor is the xor of parities. -/
theorem xor_mod_two (x y : Nat) : (x ^^^ y) % 2 = x % 2 ^^^ y % 2 := by
  have h := Nat.testBit_xor x y 0
  simp only [Nat.testBit_zero] at h
  rcases Nat.mod_two_eq_zero_or_one x with hx | hx <;>
    rcases Nat.mod_two_eq_zero_or_one y with hy | hy <;>
      rcases Nat.mod_two_eq_zero_or_one (x ^^^ y) with hxy | hxy <;>
        simp [hx, hy, hxy] at h ⊢

/-- The source's masked step equals the standard branch form. -/
theorem crcStep_eq (c : Nat) :
    crcStep c = if c % 2 = 1 then c / 2 ^^^ 0xedb88320 else c / 2 := by
  have h1 : (0xedb88320 &&& 0xffffffff : Nat) = 0xedb88320 := by decide
  have h0 : (0xedb88320 &&& 0 : Nat) = 0 := by decide
  unfold crcStep
  split <;> simp [h1, h0]

/-- The spec's per-bit step is the source's step on the bit xored in. -/
theorem crcSpecBitStep_eq (c bit : Nat) : crcSpecBitStep c bit = crcStep (c ^^^ bit) := by
  rw [crcStep_eq]; rfl

/-- One `crcStep` on a register with a whole byte xored in processes the low
bit and leaves the remaining bits xored one position lower. -/
theorem crcStep_xor_high (c b : Nat) :
    crcStep (c ^^^ b) = crcStep (c ^^^ b % 2) ^^^ b / 2 := by
  have hpar : (c ^^^ b % 2) % 2 = (c ^^^ b) % 2 := by
    rw [xor_mod_two, xor_mod_two]
    have : b % 2 % 2 = b % 2 := by omega
    rw [this]
  have hdiv : (c ^^^ b) / 2 = (c ^^^ b % 2) / 2 ^^^ b / 2 := by
    rw [xor_div_two, xor_div_two]
    have : b % 2 / 2 = 0 := by omega
    rw [this, Nat.xor_zero]
  rw [crcStep_eq, crcStep_eq, hpar]
  split
  · rw [hdiv, Nat.xor_assoc, Nat.xor_comm (b / 2) 0xedb88320, ← Nat.xor_assoc]
  · exact hdiv

/-- Iterating the source's step `k` times on a register with `b` xored in
processes the `k` low bits of `b` and leaves `b`'s high bits xored in. -/
theorem crc_iterate_bits (k : Nat) : ∀ c b : Nat,
    crcStep^[k] (c ^^^ b) = List.foldl crcSpecBitStep c (bitsLSB k b) ^^^ b / 2 ^ k := by
  induction k with
  | zero => intro c b; simp [bitsLSB]
  | succ k ih =>
    intro c b
    rw [Function.iterate_succ_apply, crcStep_xor_high, ih (crcStep (c ^^^ b % 2)) (b / 2)]
    simp only [bitsLSB, List.foldl_cons, crcSpecBitStep_eq]
    congr 1
    rw [Nat.div_div_eq_div_mul]
    congr 1
    rw [Nat.pow_succ]
    ring

/-- For a byte value, the source's per-byte update processes exactly the
byte's eight bits, least significant first. -/
theorem crcByteUpdate_eq_bits (c b : Nat) (hb : b < 256) :
    crcByteUpdate c b = List.foldl crcSpecBitStep c (bitsLSB 8 b) := by
  have h2 : b < 2 ^ 8 := by norm_num; exact hb
  rw [crcByteUpdate, crc_iterate_bits, Nat.div_eq_of_lt h2, Nat.xor_zero]

/-- The source's register computation equals the spec's reflected bit-level
computation on byte input. -/
theorem crc32Register_eq_spec (bs : List Nat) (hb : ∀ x ∈ bs, x < 256) :
    crc32Register bs = crc32ReflectedSpec bs := by
  unfold crc32Register crc32ReflectedSpec
  congr 1
  exact List.foldl_ext _ _ _ fun c b hbmem => crcByteUpdate_eq_bits c b (hb b hbmem)

/-- Every hex digit character produced is one of the sixteen lowercase hex
digit characters. -/
theorem hexDigitChar_mem (n : Nat) : hexDigitChar n ∈ hexDigits := by
  by_cases h : n < 16
  · exact (by decide : ∀ m, m < 16 → hexDigitChar m ∈ hexDigits) n h
  · unfold hexDigitChar
    rw [List.getD_eq_getElem?_getD, List.getElem?_eq_none]
    · decide
    · simp only [hexDigits]
      simp only [List.length]
      omega

/-- Every character of a hex encoding is a lowercase hex digit. -/
theorem toHexChars_mem {bs : List Nat} {ch : Char} (h : ch ∈ toHexChars bs) :
    ch ∈ hexDigits := by
  induction bs with
  | nil => simp [toHexChars] at h
  | cons b rest ih =>
    simp only [toHexChars, hexByteChars, List.cons_append, List.nil_append,
      List.mem_cons] at h
    rcases h with rfl | rfl | h
    · exact hexDigitChar_mem _
    · exact hexDigitChar_mem _
    · exact ih h

/-- A hex encoding has two characters per byte. -/
theorem toHexChars_length (bs : List Nat) : (toHexChars bs).length = 2 * bs.length := by
  induction bs with
  | nil => rfl
  | cons b rest ih =>
    simp only [toHexChars, hexByteChars, List.cons_append, List.nil_append,
      List.length_cons, ih]
    omega

/-- String-level form of `toHexChars_length`. -/
theorem toHex_length (bs : List Nat) : (toHex bs).length = 2 * bs.length :=
  toHexChars_length bs

/-- Lemma: `calculateCRC32` always yields four bytes. -/
theorem calculateCRC32_length (bs : List Nat) : (calculateCRC32 bs).length = 4 := rfl

/-- Lemma: `sha224` always yields 28 bytes. -/
theorem sha224_length (msg : List Nat) : (sha224 msg).length = 28 := rfl

/-! ## Claim theorems -/

/-- C1: refuted on the code (code bug). The claim requires the whole part and
remainder to come from exact integer division of the balance by
`10 ^ decimals`, with no floating-point intermediate, for every decimals in
0..255. The source computes the divisor as `BigInt(10 ** decimals)` where
`10 ** decimals` is float64 exponentiation: at `decimals = 23` the divisor is
`99999999999999991611392 ≠ 10 ^ 23`, and the rendered string for the exact
balance `10 ^ 23` is wrong (the spec-faithful `formatBalanceSpec` renders
`1`). -/
theorem formatBalance_float_divisor_bug :
    jsPow10 23 = 99999999999999991611392 ∧
    jsPow10 23 ≠ 10 ^ 23 ∧
    formatBalance (10 ^ 23) 23 = "1.00000000000000008388608" ∧
    formatBalanceSpec (10 ^ 23) 23 = "1" ∧
    formatBalance (10 ^ 23) 23 ≠ formatBalanceSpec (10 ^ 23) 23 :=
  ⟨by decide, by decide, by decide, by decide, by decide⟩

/-- C4: the four concrete `decimals = 8` evaluations hold, but the clause
that `formatBalance (v * 10 ^ d) d` contains no decimal point fails at
`v = 1, d = 23` (inside the claimed 0..255 range) because of the
floating-point divisor — the same code bug as C1. -/
theorem formatBalance_examples_and_exact_multiple_bug :
    formatBalance 123456789 8 = "1.23456789" ∧
    formatBalance 100000000 8 = "1" ∧
    formatBalance 100500000 8 = "1.005" ∧
    formatBalance 0 8 = "0" ∧
    '.' ∈ (formatBalance (1 * 10 ^ 23) 23).data :=
  ⟨by decide, by decide, by decide, by decide, by decide⟩

/-- C2: `generateAccountId` returns the hex encoding of the 4-byte CRC-32 of
the 28-byte SHA-224 digest of the record `0x0A ++ ASCII "account-id" ++
principal bytes ++ subaccount (32 zero bytes if absent)` followed by that
digest; the output has exactly 64 characters, all lowercase hex digits, and
identical inputs give identical output. -/
theorem generateAccountId_spec (principalBytes : List Nat) (subaccount : Option (List Nat))
    (_hp : ∀ x ∈ principalBytes, x < 256) (_hs : ∀ s ∈ subaccount, s.length = 32) :
    generateAccountId principalBytes subaccount =
      toHex (calculateCRC32 (sha224 (accountDomainSep ++ principalBytes ++
          subaccount.getD (List.replicate 32 0))) ++
        sha224 (accountDomainSep ++ principalBytes ++ subaccount.getD (List.replicate 32 0))) ∧
    (generateAccountId principalBytes subaccount).length = 64 ∧
    (∀ ch ∈ (generateAccountId principalBytes subaccount).data, ch ∈ hexDigits) ∧
    generateAccountId principalBytes subaccount = generateAccountId principalBytes subaccount := by
  refine ⟨rfl, ?_, fun ch hch => toHexChars_mem hch, rfl⟩
  have h1 : generateAccountId principalBytes subaccount =
      toHex (calculateCRC32 (sha224 (accountDomainSep ++ principalBytes ++
          subaccount.getD (List.replicate 32 0))) ++
        sha224 (accountDomainSep ++ principalBytes ++
          subaccount.getD (List.replicate 32 0))) := rfl
  rw [h1, toHex_length, List.length_append, calculateCRC32_length, sha224_length]

/-- Witness for C2: the anonymous principal (byte encoding `[0x04]`) with no
subaccount. -/
theorem generateAccountId_spec_check :
    (∀ x ∈ [4], x < 256) ∧
    (∀ s ∈ (none : Option (List Nat)), s.length = 32) ∧
    (generateAccountId [4] none =
      toHex (calculateCRC32 (sha224 (accountDomainSep ++ [4] ++
          (none : Option (List Nat)).getD (List.replicate 32 0))) ++
        sha224 (accountDomainSep ++ [4] ++
          (none : Option (List Nat)).getD (List.replicate 32 0))) ∧
    (generateAccountId [4] none).length = 64 ∧
    (∀ ch ∈ (generateAccountId [4] none).data, ch ∈ hexDigits) ∧
    generateAccountId [4] none = generateAccountId [4] none) :=
  ⟨by decide, by simp,
    generateAccountId_spec [4] none (by decide) (by simp)⟩

/-- C3: `calculateCRC32` is the big-endian 4-byte serialization of the
standard reflected CRC-32 (polynomial 0xEDB88320, initial register
0xFFFFFFFF, bit-reflected input, final complement) of its input, always of
length 4, and maps the ASCII bytes of `123456789` to CB F4 39 26. -/
theorem calculateCRC32_spec (bs : List Nat) (hb : ∀ x ∈ bs, x < 256) :
    calculateCRC32 bs = bigEndian4 (crc32ReflectedSpec bs) ∧
    (calculateCRC32 bs).length = 4 ∧
    calculateCRC32 [0x31, 0x32, 0x33, 0x34, 0x35, 0x36, 0x37, 0x38, 0x39] =
      [0xcb, 0xf4, 0x39, 0x26] := by
  refine ⟨?_, rfl, by decide⟩
  show bigEndian4 (crc32Register bs) = bigEndian4 (crc32ReflectedSpec bs)
  rw [crc32Register_eq_spec bs hb]

/-- Witness for C3 at the ASCII bytes of `123456789`. -/
theorem calculateCRC32_spec_check :
    (∀ x ∈ [0x31, 0x32, 0x33, 0x34, 0x35, 0x36, 0x37, 0x38, 0x39], x < 256) ∧
    (calculateCRC32 [0x31, 0x32, 0x33, 0x34, 0x35, 0x36, 0x37, 0x38, 0x39] =
      bigEndian4 (crc32ReflectedSpec [0x31, 0x32, 0x33, 0x34, 0x35, 0x36, 0x37, 0x38, 0x39]) ∧
    (calculateCRC32 [0x31, 0x32, 0x33, 0x34, 0x35, 0x36, 0x37, 0x38, 0x39]).length = 4 ∧
    calculateCRC32 [0x31, 0x32, 0x33, 0x34, 0x35, 0x36, 0x37, 0x38, 0x39] =
      [0xcb, 0xf4, 0x39, 0x26]) :=
  ⟨by decide, calculateCRC32_spec _ (by decide)⟩

/-- C5 counterexample: with an empty cache, two overlapping `getTokenInfo`
calls for the same token id (the second starting before the first's fetch
resolves) invoke the metadata fetch twice, refuting "exactly once in
total". -/
theorem overlapping_lookups_double_fetch :
    (runOverlappingPair [] ("tokenA") ("tokenA")
        (Except.ok ⟨"Name", "SYM", 8⟩) (Except.ok ⟨"Name", "SYM", 8⟩)).2.2.2 = 2 := rfl

/-- C5 amended: the source has no request coalescing — each overlapping miss
for an uncached id triggers its own fetch, so two overlapping lookups invoke
the fetch twice, each caller receiving its own fetch's result (hence the same
metadata when the two fetches return the same value); only a lookup beginning
after a completed successful call is served from the cache without another
fetch. -/
theorem overlapping_lookups_amended (cache : TokenCache) (id : String) (v : TokenInfo)
    (h : cacheLookup cache id = none) :
    runOverlappingPair cache id id (Except.ok v) (Except.ok v) =
      ((id, v) :: (id, v) :: cache, v, v, 2) ∧
    getTokenInfo ((id, v) :: cache) id (Except.ok v) = ((id, v) :: cache, v, false) := by
  constructor
  · simp [runOverlappingPair, getTokenInfoCheck, getTokenInfoResume, h]
  · simp [getTokenInfo, getTokenInfoCheck, cacheLookup]

/-- Witness for the amended C5 on an empty cache. -/
theorem overlapping_lookups_amended_check :
    cacheLookup [] ("tokenA") = none ∧
    (runOverlappingPair [] ("tokenA") ("tokenA")
        (Except.ok ⟨"Name", "SYM", 8⟩) (Except.ok ⟨"Name", "SYM", 8⟩) =
      ([(("tokenA"), ⟨"Name", "SYM", 8⟩), (("tokenA"), ⟨"Name", "SYM", 8⟩)],
        ⟨"Name", "SYM", 8⟩, ⟨"Name", "SYM", 8⟩, 2) ∧
    getTokenInfo [(("tokenA"), ⟨"Name", "SYM", 8⟩)] ("tokenA")
        (Except.ok ⟨"Name", "SYM", 8⟩) =
      ([(("tokenA"), ⟨"Name", "SYM", 8⟩)], ⟨"Name", "SYM", 8⟩, false)) :=
  ⟨rfl, overlapping_lookups_amended [] ("tokenA") ⟨"Name", "SYM", 8⟩ rfl⟩

/-- C7: when the fetch for an uncached id fails, nothing is stored, the
fallback `{name: "Unknown Token", symbol: "", decimals: 8}` is returned, and
every key's cached entry is unchanged; a later call for the same id invokes
the fetch again and, on success, caches and returns the fetched metadata. -/
theorem getTokenInfo_failure_isolation (cache : TokenCache) (id : String)
    (e : String) (v : TokenInfo) (h : cacheLookup cache id = none) :
    getTokenInfo cache id (Except.error e) = (cache, fallbackTokenInfo, true) ∧
    fallbackTokenInfo = ⟨"Unknown Token", "", 8⟩ ∧
    (∀ k, cacheLookup (getTokenInfo cache id (Except.error e)).1 k = cacheLookup cache k) ∧
    getTokenInfo cache id (Except.ok v) = ((id, v) :: cache, v, true) ∧
    cacheLookup ((id, v) :: cache) id = some v := by
  have h1 : getTokenInfo cache id (Except.error e) = (cache, fallbackTokenInfo, true) := by
    simp [getTokenInfo, getTokenInfoCheck, getTokenInfoResume, h]
  refine ⟨h1, rfl, fun k => by rw [h1], ?_, ?_⟩
  · simp [getTokenInfo, getTokenInfoCheck, getTokenInfoResume, h]
  · simp [cacheLookup]

/-- Witness for C7: a failing fetch for `tokenA` with `tokenB` already
cached. -/
theorem getTokenInfo_failure_isolation_check :
    cacheLookup [(("tokenB"), ⟨"B", "B", 2⟩)] ("tokenA") = none ∧
    (getTokenInfo [(("tokenB"), ⟨"B", "B", 2⟩)] ("tokenA") (Except.error ("boom")) =
      ([(("tokenB"), ⟨"B", "B", 2⟩)], fallbackTokenInfo, true) ∧
    fallbackTokenInfo = ⟨"Unknown Token", "", 8⟩ ∧
    (∀ k, cacheLookup
        (getTokenInfo [(("tokenB"), ⟨"B", "B", 2⟩)] ("tokenA") (Except.error ("boom"))).1 k =
      cacheLookup [(("tokenB"), ⟨"B", "B", 2⟩)] k) ∧
    getTokenInfo [(("tokenB"), ⟨"B", "B", 2⟩)] ("tokenA") (Except.ok ⟨"A", "A", 8⟩) =
      ([(("tokenA"), ⟨"A", "A", 8⟩), (("tokenB"), ⟨"B", "B", 2⟩)], ⟨"A", "A", 8⟩, true) ∧
    cacheLookup [(("tokenA"), ⟨"A", "A", 8⟩), (("tokenB"), ⟨"B", "B", 2⟩)] ("tokenA") =
      some ⟨"A", "A", 8⟩) :=
  ⟨by decide, getTokenInfo_failure_isolation _ _ ("boom") ⟨"A", "A", 8⟩ (by decide)⟩

/-- C8: when the ledger query fails, the result's `error` field holds a
string that contains the token id and the underlying failure message as
substrings (and the function is total — no exception escapes). -/
theorem queryTokenBalance_error_embeds
    (ledger : IcrcAccount → Except String Nat) (tokenCanisterId : String)
    (principalBytes : List Nat) (subaccount : Option (List Nat)) (msg : String)
    (h : ledger (mkIcrcAccount principalBytes subaccount) = Except.error msg) :
    ∃ s, (queryTokenBalance ledger tokenCanisterId principalBytes subaccount).error = some s ∧
      substrOf tokenCanisterId s ∧ substrOf msg s := by
  refine ⟨"Failed to query " ++ tokenCanisterId ++ " balance: " ++ msg, ?_, ?_, ?_⟩
  · simp [queryTokenBalance, h]
  · refine ⟨("Failed to query ").data, (" balance: " ++ msg).data, ?_⟩
    simp [substrOf, String.data_append, List.append_assoc]
  · refine ⟨("Failed to query " ++ tokenCanisterId ++ " balance: ").data, [], ?_⟩
    simp [substrOf, String.data_append, List.append_assoc]

/-- Witness for C8: a ledger that rejects with message `boom`. -/
theorem queryTokenBalance_error_embeds_check :
    ((fun _ : IcrcAccount => (Except.error ("boom") : Except String Nat))
        (mkIcrcAccount [4] none) = Except.error ("boom")) ∧
    ∃ s, (queryTokenBalance (fun _ => Except.error ("boom")) ("ryjl3-tyaaa-aaaaa-aaaba-cai")
        [4] none).error = some s ∧
      substrOf ("ryjl3-tyaaa-aaaaa-aaaba-cai") s ∧ substrOf ("boom") s :=
  ⟨rfl, queryTokenBalance_error_embeds (fun _ => Except.error ("boom"))
    ("ryjl3-tyaaa-aaaaa-aaaba-cai") [4] none ("boom") rfl⟩

/-- C9 counterexample: with the unsupported selector `testnet`, construction
of the service succeeds (treating it as the non-local case) instead of
failing with an error. -/
theorem constructorInit_accepts_bad_selector :
    constructorInit (some ("testnet")) = Except.ok false := rfl

/-- C9 amended: the constructor performs no validation — initialization
succeeds for every selector, any value other than `local` behaving as the
remote case; only the private `getNetworkConfig` helper (invoked by no code
path in the class) rejects selectors other than `local`/`ic`. -/
theorem constructorInit_never_fails_amended (env : Option String)
    (hbad : serviceNetwork env ≠ "local" ∧ serviceNetwork env ≠ "ic") :
    (∀ env' : Option String, ∃ b, constructorInit env' = Except.ok b) ∧
    constructorInit env = Except.ok false ∧
    ∃ m, getNetworkConfig env = Except.error m := by
  obtain ⟨h1, h2⟩ := hbad
  refine ⟨fun env' => ⟨_, rfl⟩, ?_, ?_⟩
  · simp [constructorInit, h1]
  · have herr : getNetworkConfig env =
        Except.error ("无效的 DFX_NETWORK 值: " ++ serviceNetwork env ++
          "，应为 \"local\" 或 \"ic\"") := by
      simp [getNetworkConfig, h1, h2]
    exact ⟨_, herr⟩

/-- Witness for the amended C9 at selector `testnet`. -/
theorem constructorInit_never_fails_amended_check :
    (serviceNetwork (some ("testnet")) ≠ "local" ∧
      serviceNetwork (some ("testnet")) ≠ "ic") ∧
    ((∀ env' : Option String, ∃ b, constructorInit env' = Except.ok b) ∧
    constructorInit (some ("testnet")) = Except.ok false ∧
    ∃ m, getNetworkConfig (some ("testnet")) = Except.error m) :=
  ⟨by decide, constructorInit_never_fails_amended (some ("testnet")) (by decide)⟩

/-- C10: every call returns a result with exactly one populated field —
`balance` carrying the ledger's integer on success, `error` carrying a string
on failure — and never throws (totality of the embedding). -/
theorem queryTokenBalance_exactly_one_field
    (ledger : IcrcAccount → Except String Nat) (tokenCanisterId : String)
    (principalBytes : List Nat) (subaccount : Option (List Nat)) :
    (∃ b, ledger (mkIcrcAccount principalBytes subaccount) = Except.ok b ∧
      queryTokenBalance ledger tokenCanisterId principalBytes subaccount =
        { balance := some b, error := none }) ∨
    (∃ msg s, ledger (mkIcrcAccount principalBytes subaccount) = Except.error msg ∧
      queryTokenBalance ledger tokenCanisterId principalBytes subaccount =
        { balance := none, error := some s }) := by
  cases hl : ledger (mkIcrcAccount principalBytes subaccount) with
  | ok b => exact Or.inl ⟨b, rfl, by simp [queryTokenBalance, hl]⟩
  | error msg =>
    exact Or.inr ⟨msg, "Failed to query " ++ tokenCanisterId ++ " balance: " ++ msg,
      rfl, by simp [queryTokenBalance, hl]⟩

/-- C6: deriving with no subaccount gives the same identifier as deriving
with an explicit subaccount of 32 zero bytes. -/
theorem generateAccountId_default_sub (principalBytes : List Nat) :
    generateAccountId principalBytes none =
      generateAccountId principalBytes (some (List.replicate 32 0)) := rfl

end TokenService
